import Mathlib

/-!
Verification of the LFG (looking-for-group) Discord bot, `src/index.js`,
against its natural-language specification.

The JavaScript source keeps its state in a handful of module-level `Map`s
(`lfgSessions`, `lfgJoinedUsers`, `webhookChannels`, `guildGameFilters`), a
plain stats object (`lfgStats`) and a per-user rate-limiter object
(`rateLimiter`).  We embed those maps as association lists in insertion
order, which is exactly the iteration order of a JavaScript `Map`.

Values in `lfgSessions`, `lfgJoinedUsers`, `webhookChannels` and
`guildGameFilters` are stored wrapped as `{ value, expiresAt }` by
`setWithTTL`.  Reads (`map.get(k)`) never consult `expiresAt` (expiry is
handled only by the periodic sweep, which no claim below depends on), so
the embedding stores the `value` component directly; `setWithTTL` becomes
a plain insert-or-replace.

External collaborators (Discord channels, webhooks, the voice-state cache,
the SQLite mirror) are modelled as explicit inputs: channel ids created by
Discord, boolean success of webhook deliveries, the occupancy view of the
voice channel, and the 4-digit draw of `Math.random` are all parameters of
the corresponding operation.  The SQLite database is a write-only mirror of
the in-memory maps (the source reloads it only at startup), so it is not
modelled separately.
-/

namespace Exolfg

/-! ### Association-list embedding of a JavaScript `Map` -/

/-- `map.get(k)`: first binding of `k`, if any. -/
def mapGet {α : Type} : List (String × α) → String → Option α
  | [], _ => none
  | (k', v) :: rest, k => if k' = k then some v else mapGet rest k

/-- `map.set(k, v)` (also `setWithTTL`): replace the binding of `k` in
place if present, otherwise append a new binding at the end.  This is the
insertion-order behaviour of a JavaScript `Map`. -/
def mapSet {α : Type} : List (String × α) → String → α → List (String × α)
  | [], k, v => [(k, v)]
  | (k', v') :: rest, k, v =>
      if k' = k then (k, v) :: rest else (k', v') :: mapSet rest k v

/-- `map.delete(k)`: drop the first binding of `k`. -/
def mapDelete {α : Type} : List (String × α) → String → List (String × α)
  | [], _ => []
  | (k', v') :: rest, k => if k' = k then rest else (k', v') :: mapDelete rest k

theorem mapGet_mapSet_self {α : Type} (m : List (String × α)) (k : String) (v : α) :
    mapGet (mapSet m k v) k = some v := by
  induction m with
  | nil => simp [mapGet, mapSet]
  | cons e rest ih =>
      obtain ⟨k', v'⟩ := e
      by_cases h : k' = k
      · simp [mapGet, mapSet, h]
      · simp [mapGet, mapSet, h, ih]

theorem mapGet_mapSet_ne {α : Type} (m : List (String × α)) (k k' : String) (v : α)
    (h : k' ≠ k) : mapGet (mapSet m k v) k' = mapGet m k' := by
  induction m with
  | nil => simp [mapGet, mapSet, Ne.symm h]
  | cons e rest ih =>
      obtain ⟨k₀, v₀⟩ := e
      by_cases h0 : k₀ = k
      · subst h0
        simp [mapGet, mapSet, Ne.symm h]
      · by_cases h1 : k₀ = k'
        · simp [mapGet, mapSet, h0, h1, h]
        · simp [mapGet, mapSet, h0, h1, ih]

theorem mem_mapSet {α : Type} {m : List (String × α)} {k : String} {v : α}
    {x : String × α} (hx : x ∈ mapSet m k v) : x = (k, v) ∨ x ∈ m := by
  induction m with
  | nil => simpa [mapSet] using hx
  | cons e rest ih =>
      obtain ⟨k₀, v₀⟩ := e
      by_cases h0 : k₀ = k
      · simp [mapSet, h0] at hx
        rcases hx with h | h
        · exact Or.inl (by simp [h])
        · exact Or.inr (by simp [h])
      · simp [mapSet, h0] at hx
        rcases hx with h | h
        · exact Or.inr (by simp [h])
        · rcases ih h with h' | h'
          · exact Or.inl h'
          · exact Or.inr (by simp [h'])

/-! ### Rate limiter (`checkRateLimit`, src/index.js lines 545-553) -/

/-- `limit` in `checkRateLimit`. -/
def rlLimit : Nat := 5

/-- `interval` in `checkRateLimit` (60 000 ms). -/
def rlInterval : Nat := 60000

/-- One admission attempt by an actor at time `now`, over that actor's
stored timestamp list.  Mirrors `checkRateLimit`: prune timestamps with
`now - ts < interval`, reject without recording if the pruned count has
reached the limit, otherwise push `now` and accept.  Returns
(accepted?, new stored list). -/
def checkRateLimit (now : Nat) (tss : List Nat) : Bool × List Nat :=
  let pruned := tss.filter (fun ts => now - ts < rlInterval)
  if rlLimit ≤ pruned.length then (false, pruned)
  else (true, pruned ++ [now])

/-- Run a sequence of admission attempts (given by their times) through the
rate limiter, starting from a stored list; returns the per-attempt verdicts
and the final stored list. -/
def runRateLimit : List Nat → List Nat → List Bool × List Nat
  | [], st => ([], st)
  | t :: ts, st =>
      let r := checkRateLimit t st
      let rest := runRateLimit ts r.2
      (r.1 :: rest.1, rest.2)

/-! ### Community game filter (`getGuildGameFilter`, `isGameAllowedForGuild`,
src/index.js lines 157-170).  The in-memory cache and the SQLite table hold
the same mapping (the cache is filled from the table on miss); we model the
merged mapping, with an absent guild row giving `[]`. -/

def getGuildGameFilter (filters : List (String × List String)) (guildId : String) :
    List String :=
  (mapGet filters guildId).getD []

def isGameAllowedForGuild (filters : List (String × List String))
    (guildId game : String) : Bool :=
  let f := getGuildGameFilter filters guildId
  f.length = 0 || f.contains game

/-! ### Data model -/

/-- One LFG session, the `sessionData` object built in `handleLFGCommand`
(src/index.js lines 979-994).  The `timeoutId` handle is part of the
idle-expiry scheduler, modelled separately below.  JavaScript numbers are
embedded as `Int`. -/
structure Session where
  userId : String
  user : String
  game : String
  platform : String
  activity : String
  gametag : String
  description : String
  twitchUrl : Option String
  date : String
  players : Int
  categoryId : String
  voiceChannelId : String
  textChannelId : String
  infoTextChannelId : String
  infoMessageId : String
  commandChannelId : String
  commandChannelMessageId : String
  guildId : String
  deriving Repr, DecidableEq

/-- The bot's in-memory state: the four module-level maps plus the two
aggregate counters of `lfgStats` (src/index.js lines 109-114). -/
structure BotState where
  lfgSessions : List (String × Session)
  lfgJoinedUsers : List (String × List String)
  webhookChannels : List (String × String)
  guildGameFilters : List (String × List String)
  totalSessions : Int
  totalPlayers : Int
  deriving Repr, DecidableEq

/-! ### Session creation (`handleLFGCommand`, src/index.js lines 805-1015) -/

/-- The parsed command options and interaction context of `/lfg`, plus the
4-digit draw `Math.floor(1000 + Math.random() * 9000).toString()` (line
819), which the source uses directly without any collision check; the draw
is an input of the model.  `twitchMatches` is the result of
`TWITCH_REGEX.test(twitchRaw.trim())` (the regular expression itself is
not modelled).  Discord enforces `1 ≤ players ≤ 10` via the
`min_value`/`max_value` bounds of the `joueurs` option. -/
structure CreateParams where
  guildId : String
  channelId : String
  userId : String
  userTag : String
  hasManageChannels : Bool
  game : String
  platform : String
  players : Int
  gametag : String
  activity : String
  description : Option String
  twitchRaw : Option String
  twitchMatches : Bool
  sessionId : String

/-- The external collaborators consumed by `/lfg`: the ids Discord assigns
to the four created channels and the two sent messages, whether a target
guild's announcement channel resolves to a text channel
(`targetChannel?.isTextBased()`), and whether the webhook delivery to a
target guild succeeds (the `try` body of the fan-out loop). -/
structure CreateEnv where
  categoryId : String
  textChannelId : String
  voiceChannelId : String
  infoTextChannelId : String
  infoMessageId : String
  commandChannelMessageId : String
  targetResolvable : String → Bool
  deliverOk : String → Bool

inductive CreateResult where
  | noPermission
  | badTwitch
  | gameNotAllowed (allowed : List String)
  | created (sessionId : String) (deliveries : List (String × Bool))
  deriving Repr, DecidableEq

/-- The cross-server announcement loop (src/index.js lines 938-977): walk
`webhookChannels` in insertion order, skip the owning guild, skip targets
whose game filter disallows the game, skip targets whose announcement
channel does not resolve (`continue`), and attempt delivery to every
remaining target; a failed delivery is caught inside the loop body and
iteration continues.  Returns the attempted targets with their delivery
outcome. -/
def fanoutBody (filters : List (String × List String)) (ownGuildId game : String)
    (env : CreateEnv) (acc : List (String × Bool)) (e : String × String) :
    List (String × Bool) :=
  if e.1 = ownGuildId then acc
  else if !(isGameAllowedForGuild filters e.1 game) then acc
  else if !(env.targetResolvable e.1) then acc
  else acc ++ [(e.1, env.deliverOk e.1)]

def fanout (webhooks : List (String × String)) (filters : List (String × List String))
    (ownGuildId game : String) (env : CreateEnv) : List (String × Bool) :=
  webhooks.foldl (fanoutBody filters ownGuildId game env) []

/-- The `sessionData` record built at src/index.js lines 979-994 (the
`trim`/trailing-slash normalisation of the Twitch URL and the ISO date
string are carried verbatim). -/
def createSessionData (p : CreateParams) (env : CreateEnv) (date : String) : Session :=
  { userId := p.userId
    user := p.userTag
    game := p.game
    platform := p.platform
    activity := p.activity
    gametag := p.gametag
    description := p.description.getD "Pas de description"
    twitchUrl := p.twitchRaw
    date := date
    players := p.players
    categoryId := env.categoryId
    voiceChannelId := env.voiceChannelId
    textChannelId := env.textChannelId
    infoTextChannelId := env.infoTextChannelId
    infoMessageId := env.infoMessageId
    commandChannelId := p.channelId
    commandChannelMessageId := env.commandChannelMessageId
    guildId := p.guildId }

/-- `handleLFGCommand`: permission check, Twitch-URL validation, game
filter check (each rejecting with no state change), then channel creation
and announcement fan-out, then the registry/stats mutation:
`lfgSessions.set`, `lfgJoinedUsers.set` seeded with the creator,
`totalSessions++`, `totalPlayers += players`. -/
def handleLFGCommand (st : BotState) (p : CreateParams) (env : CreateEnv)
    (date : String) : CreateResult × BotState :=
  if !p.hasManageChannels then (.noPermission, st)
  else if p.twitchRaw.isSome && !p.twitchMatches then (.badTwitch, st)
  else if !(isGameAllowedForGuild st.guildGameFilters p.guildId p.game) then
    (.gameNotAllowed (getGuildGameFilter st.guildGameFilters p.guildId), st)
  else
    let deliveries := fanout st.webhookChannels st.guildGameFilters p.guildId p.game env
    (.created p.sessionId deliveries,
     { st with
        lfgSessions := mapSet st.lfgSessions p.sessionId (createSessionData p env date)
        lfgJoinedUsers := mapSet st.lfgJoinedUsers p.sessionId [p.userId]
        totalSessions := st.totalSessions + 1
        totalPlayers := st.totalPlayers + p.players })

/-! ### Session modification (`handleModifyLFGCommand`, src/index.js lines
1019-1113) -/

/-- JavaScript truthiness of `options.getInteger(...)`: absent or `0` is
falsy. -/
def jsTruthyInt (o : Option Int) : Bool :=
  match o with
  | none => false
  | some n => n != 0

/-- JavaScript truthiness of `options.getString(...)`: absent or `""` is
falsy. -/
def jsTruthyStr (o : Option String) : Bool :=
  match o with
  | none => false
  | some s => s != ""

inductive ModifyResult where
  | noPermission
  | noField
  | notFound (sessionId : String)
  | modified
  deriving Repr, DecidableEq

/-- `handleModifyLFGCommand`.  The handler receives the invoking member
(identity and guild) from the interaction but reads only
`member.permissions.has(ManageChannels)`; the invoking guild is used only
to resolve channels and messages for display updates, and neither the
invoker's id nor the invoking guild is ever compared against the stored
session, so `invokerGuildId` and `invokerUserId` do not occur in the state
computation.  On a capacity change the aggregate counter becomes
`totalPlayers - session.players + newPlayers`. -/
def handleModifyLFGCommand (st : BotState) (_invokerGuildId _invokerUserId : String)
    (hasManageChannels : Bool) (sessionId : String)
    (newPlayers : Option Int) (newDesc : Option String) : ModifyResult × BotState :=
  if !hasManageChannels then (.noPermission, st)
  else if !(jsTruthyInt newPlayers) && !(jsTruthyStr newDesc) then (.noField, st)
  else
    match mapGet st.lfgSessions sessionId with
    | none => (.notFound sessionId, st)
    | some s0 =>
        let step1 : Session × Int :=
          if jsTruthyInt newPlayers then
            ({ s0 with players := newPlayers.getD 0 },
             st.totalPlayers - s0.players + newPlayers.getD 0)
          else (s0, st.totalPlayers)
        let s2 : Session :=
          if jsTruthyStr newDesc then { step1.1 with description := newDesc.getD "" }
          else step1.1
        (.modified,
         { st with
            lfgSessions := mapSet st.lfgSessions sessionId s2
            totalPlayers := step1.2 })

/-! ### Join (`handleJoinButton`, src/index.js lines 1511-1582) -/

inductive JoinResult where
  | notFound (sessionId : String)
  | alreadyJoined
  | full
  | voiceMissing
  /-- Successful join: the new roster size.  `deliveries` lists the
  cross-server webhook announcements attempted during the join; the join
  handler contains no announcement loop over `webhookChannels` (it only
  edits the session's own pinned info message), so this is always `[]`. -/
  | joined (joinedCount : Nat) (deliveries : List (String × Bool))
  deriving Repr, DecidableEq

/-- `handleJoinButton`: look the session up in the global map; reject if
the actor already appears in the roster (`AlreadyJoined`), if the roster
has reached capacity (`joinedUsers.length >= session.players`, `Full`), or
if the session's voice channel does not resolve; otherwise push the actor
and store the roster back.  `voiceResolvable` is the Discord channel
cache. -/
def handleJoinButton (st : BotState) (userId sessionId : String)
    (voiceResolvable : String → Bool) : JoinResult × BotState :=
  match mapGet st.lfgSessions sessionId with
  | none => (.notFound sessionId, st)
  | some session =>
      let joinedUsers := (mapGet st.lfgJoinedUsers sessionId).getD []
      if joinedUsers.contains userId then (.alreadyJoined, st)
      else if session.players ≤ (joinedUsers.length : Int) then (.full, st)
      else if !(voiceResolvable session.voiceChannelId) then (.voiceMissing, st)
      else
        let joinedUsers' := joinedUsers ++ [userId]
        (.joined joinedUsers'.length [],
         { st with lfgJoinedUsers := mapSet st.lfgJoinedUsers sessionId joinedUsers' })

/-! ### Kick and ban (`handleKickMemberCommand`, `handleBanMemberCommand`,
src/index.js lines 1176-1243) -/

inductive RemoveResult where
  | notFound (sessionId : String)
  | notOrganizer
  | notInVoice
  | externalFailed
  | removed
  deriving Repr, DecidableEq

/-- `handleKickMemberCommand`: organizer-only; rejected with a
not-in-voice error when the session's voice channel is missing from the
cache or the target's current voice channel differs from it
(`!voiceChannel || targetMember.voice.channelId !== voiceChannel.id`), with
no roster change.  `externalOk` is the success of the
`targetMember.voice.disconnect()` call, whose failure is caught before any
roster mutation. -/
def handleKickMemberCommand (st : BotState) (invokerId sessionId targetId : String)
    (voiceChannelExists : String → Bool) (targetVoiceChannelId : Option String)
    (externalOk : Bool) : RemoveResult × BotState :=
  match mapGet st.lfgSessions sessionId with
  | none => (.notFound sessionId, st)
  | some session =>
      if invokerId != session.userId then (.notOrganizer, st)
      else if !(voiceChannelExists session.voiceChannelId)
           || targetVoiceChannelId != some session.voiceChannelId then (.notInVoice, st)
      else if !externalOk then (.externalFailed, st)
      else
        match mapGet st.lfgJoinedUsers sessionId with
        | some ju =>
            let ju' := ju.filter (fun i => i != targetId)
            (.removed, { st with lfgJoinedUsers := mapSet st.lfgJoinedUsers sessionId ju' })
        | none => (.removed, st)

/-- `handleBanMemberCommand`: same occupancy gate as kick; `externalOk`
covers the `disconnect()` and `guild.members.ban(...)` calls, both of
which precede the roster mutation and whose failure is caught before it. -/
def handleBanMemberCommand (st : BotState) (invokerId sessionId targetId : String)
    (voiceChannelExists : String → Bool) (targetVoiceChannelId : Option String)
    (externalOk : Bool) : RemoveResult × BotState :=
  match mapGet st.lfgSessions sessionId with
  | none => (.notFound sessionId, st)
  | some session =>
      if invokerId != session.userId then (.notOrganizer, st)
      else if !(voiceChannelExists session.voiceChannelId)
           || targetVoiceChannelId != some session.voiceChannelId then (.notInVoice, st)
      else if !externalOk then (.externalFailed, st)
      else
        match mapGet st.lfgJoinedUsers sessionId with
        | some ju =>
            let ju' := ju.filter (fun i => i != targetId)
            (.removed, { st with lfgJoinedUsers := mapSet st.lfgJoinedUsers sessionId ju' })
        | none => (.removed, st)

/-! ### Session deletion (`deleteLFGSession`, src/index.js lines 616-640).
Channel teardown and timer cancellation are external/scheduler concerns;
the registry effect is removing the session and its roster.  The aggregate
counters are not touched. -/

def deleteLFGSession (st : BotState) (sessionId : String) : BotState :=
  match mapGet st.lfgSessions sessionId with
  | none => st
  | some _ =>
      { st with
          lfgSessions := mapDelete st.lfgSessions sessionId
          lfgJoinedUsers := mapDelete st.lfgJoinedUsers sessionId }

/-! ### Idle-expiry scheduler (`resetTimeout`, src/index.js lines 594-613,
and the `VoiceStateUpdate` handler, lines 1702-1707).

Per session, `resetTimeout` clears any previously armed `setTimeout` and
arms a fresh one with a 5-minute deadline; the callback deletes the
session only if its voice channel is missing or empty at the deadline.
Every `VoiceStateUpdate` touching the session's voice channel calls
`resetTimeout`.  We model the timers of one session as the list of
deadlines of armed, not-yet-cancelled timers, and the event trace as
re-arms (`voiceUpdate`) and timer callbacks (`fire`); a `fire` whose
deadline is no longer armed is the callback of a cleared timer, which
never runs (`clearTimeout`), hence a no-op. -/

/-- `5 * 60 * 1000` ms, the `setTimeout` delay in `resetTimeout`. -/
def gracePeriod : Nat := 5 * 60 * 1000

structure SchedState where
  /-- Session still present in `lfgSessions`. -/
  live : Bool
  /-- Deadlines of armed, uncancelled timers for this session. -/
  pending : List Nat
  /-- Number of times the deletion has fired for this session. -/
  deleted : Nat
  deriving Repr, DecidableEq

inductive SchedEv where
  /-- A `VoiceStateUpdate` touching the session's voice channel at time
  `t`: the handler calls `resetTimeout`, which cancels any armed timer and
  arms a new one for `t + gracePeriod` (a no-op if the session is gone,
  since `resetTimeout` returns early when `lfgSessions.get` misses). -/
  | voiceUpdate (t : Nat)
  /-- The timer armed for `deadline` reaches it; `occupied` is whether the
  voice channel resolves and is non-empty at that moment (the callback's
  re-check).  Cleared timers never run, so a deadline not in `pending` is
  a no-op. -/
  | fire (deadline : Nat) (occupied : Bool)
  deriving Repr, DecidableEq

def schedStep (s : SchedState) (e : SchedEv) : SchedState :=
  match e with
  | .voiceUpdate t =>
      if s.live then { s with pending := [t + gracePeriod] } else s
  | .fire d occupied =>
      if s.pending.contains d then
        if !occupied && s.live then { live := false, pending := [], deleted := s.deleted + 1 }
        else { s with pending := s.pending.filter (fun x => x ≠ d) }
      else s

def schedRun (s : SchedState) : List SchedEv → SchedState
  | [] => s
  | e :: es => schedRun (schedStep s e) es

/-! ### Roster-capacity invariant (§3, §8 of the spec) -/

/-- `roster.size ≤ session.players` for every live session, read through
the map interface (`lfgSessions.get` / `lfgJoinedUsers.get`), a missing
roster entry counting as empty. -/
def rosterInvB (st : BotState) : Bool :=
  st.lfgSessions.all (fun e =>
    match mapGet st.lfgSessions e.1 with
    | some s => ((mapGet st.lfgJoinedUsers e.1).getD []).length ≤ s.players
    | none => true)

/-! ## Supporting lemmas -/

/-- Core run lemma for the rate limiter: starting from a stored list whose
every timestamp is within the window of every attempt, and with all
attempts mutually within one window, exactly the first
`rlLimit - st.length` attempts are accepted and all later ones are
rejected. -/
theorem runRateLimit_flags (ts : List Nat) :
    ∀ st : List Nat,
      (∀ s ∈ st, ∀ t ∈ ts, t - s < rlInterval) →
      (∀ a ∈ ts, ∀ b ∈ ts, a - b < rlInterval) →
      (runRateLimit ts st).1 =
        List.replicate (min ts.length (rlLimit - st.length)) true
          ++ List.replicate (ts.length - (rlLimit - st.length)) false := by
  induction ts with
  | nil => intro st _ _; simp [runRateLimit]
  | cons t rest ih =>
      intro st hfresh hmut
      have hprune : st.filter (fun s => t - s < rlInterval) = st := by
        apply List.filter_eq_self.mpr
        intro s hs
        simpa using hfresh s hs t (by simp)
      by_cases hq : rlLimit ≤ st.length
      · have hz : rlLimit - st.length = 0 := Nat.sub_eq_zero_of_le hq
        have hrec := ih st
          (fun s hs u hu => hfresh s hs u (by simp [hu]))
          (fun a ha b hb => hmut a (by simp [ha]) b (by simp [hb]))
        simp only [runRateLimit, checkRateLimit, hprune, if_pos hq]
        rw [hrec]
        simp [hz, List.replicate_succ]
      · have hlt : st.length < rlLimit := Nat.lt_of_not_le hq
        have hfresh' : ∀ s ∈ st ++ [t], ∀ u ∈ rest, u - s < rlInterval := by
          intro s hs u hu
          rcases List.mem_append.mp hs with h | h
          · exact hfresh s h u (by simp [hu])
          · have : s = t := by simpa using h
            subst this
            exact hmut u (by simp [hu]) s (by simp)
        have hrec := ih (st ++ [t]) hfresh'
          (fun a ha b hb => hmut a (by simp [ha]) b (by simp [hb]))
        simp only [runRateLimit, checkRateLimit, hprune, if_neg hq]
        rw [hrec]
        have ha1 : 1 ≤ rlLimit - st.length := by omega
        have hmin : min (rest.length + 1) (rlLimit - st.length)
            = min rest.length (rlLimit - (st.length + 1)) + 1 := by omega
        have hsub : rest.length + 1 - (rlLimit - st.length)
            = rest.length - (rlLimit - (st.length + 1)) := by omega
        simp [List.length_append, hmin, hsub, List.replicate_succ]

/-- A dead scheduler state (session deleted, no pending timer) is a fixed
point of the event semantics. -/
theorem schedRun_dead (evs : List SchedEv) :
    ∀ s : SchedState, s.live = false → s.pending = [] → schedRun s evs = s := by
  induction evs with
  | nil => intro s _ _; rfl
  | cons e rest ih =>
      intro s hl hp
      have hstep : schedStep s e = s := by
        cases e with
        | voiceUpdate t => simp [schedStep, hl]
        | fire d occ => simp [schedStep, hp]
      show schedRun (schedStep s e) rest = s
      rw [hstep]
      exact ih s hl hp

/-- Every scheduler step keeps at most one armed timer. -/
theorem schedStep_pending_le (s : SchedState) (e : SchedEv)
    (h : s.pending.length ≤ 1) : (schedStep s e).pending.length ≤ 1 := by
  cases e with
  | voiceUpdate t =>
      by_cases hl : s.live <;> simp [schedStep, hl, h]
  | fire d occ =>
      simp only [schedStep]
      split
      · split
        · simp
        · exact le_trans (List.length_filter_le _ _) h
      · exact h

theorem schedRun_pending_le (evs : List SchedEv) :
    ∀ s : SchedState, s.pending.length ≤ 1 → (schedRun s evs).pending.length ≤ 1 := by
  induction evs with
  | nil => intro s h; exact h
  | cons e rest ih =>
      intro s h
      exact ih _ (schedStep_pending_le s e h)

/-- A successful lookup exposes a binding of the list. -/
theorem mapGet_mem {α : Type} {m : List (String × α)} {k : String} {v : α}
    (h : mapGet m k = some v) : (k, v) ∈ m := by
  induction m with
  | nil => simp [mapGet] at h
  | cons e rest ih =>
      obtain ⟨k₀, v₀⟩ := e
      by_cases h0 : k₀ = k
      · subst h0
        simp [mapGet] at h
        simp [h]
      · simp [mapGet, h0] at h
        simp [ih h]

/-- The fan-out loop with an explicit accumulator is append of the
filtered-and-attempted targets. -/
theorem foldl_fanoutBody (filters : List (String × List String))
    (ownGuildId game : String) (env : CreateEnv) (webhooks : List (String × String)) :
    ∀ acc : List (String × Bool),
      webhooks.foldl (fanoutBody filters ownGuildId game env) acc
        = acc ++ (webhooks.filter (fun e =>
              (e.1 != ownGuildId) && isGameAllowedForGuild filters e.1 game
                && env.targetResolvable e.1)).map
            (fun e => (e.1, env.deliverOk e.1)) := by
  induction webhooks with
  | nil => intro acc; simp
  | cons e rest ih =>
      intro acc
      simp only [List.foldl_cons, List.filter_cons]
      by_cases h1 : e.1 = ownGuildId
      · have hb : fanoutBody filters ownGuildId game env acc e = acc := by
          simp [fanoutBody, h1]
        rw [hb, ih acc]
        simp [h1]
      · by_cases h2 : isGameAllowedForGuild filters e.1 game
        · by_cases h3 : env.targetResolvable e.1
          · have hb : fanoutBody filters ownGuildId game env acc e
                = acc ++ [(e.1, env.deliverOk e.1)] := by
              simp [fanoutBody, h1, h2, h3]
            rw [hb, ih (acc ++ [(e.1, env.deliverOk e.1)])]
            simp [h1, h2, h3]
          · have hb : fanoutBody filters ownGuildId game env acc e = acc := by
              simp [fanoutBody, h1, h2, h3]
            rw [hb, ih acc]
            simp [h1, h2, h3]
        · have hb : fanoutBody filters ownGuildId game env acc e = acc := by
            simp [fanoutBody, h1, h2]
          rw [hb, ih acc]
          simp [h1, h2]

/-- `fanout` attempts delivery to exactly the registered targets that are
not the owning community, pass the target's game filter, and resolve;
each attempt's outcome is that target's own delivery result. -/
theorem fanout_eq_filter_map (webhooks : List (String × String))
    (filters : List (String × List String)) (ownGuildId game : String)
    (env : CreateEnv) :
    fanout webhooks filters ownGuildId game env
      = (webhooks.filter (fun e =>
            (e.1 != ownGuildId) && isGameAllowedForGuild filters e.1 game
              && env.targetResolvable e.1)).map
          (fun e => (e.1, env.deliverOk e.1)) := by
  simpa using foldl_fanoutBody filters ownGuildId game env webhooks []

/-! ## Concrete fixtures (used by witnesses and counterexamples) -/

def emptyState : BotState :=
  { lfgSessions := [], lfgJoinedUsers := [], webhookChannels := [],
    guildGameFilters := [], totalSessions := 0, totalPlayers := 0 }

/-- A `/lfg` invocation by `alice` in guild `gA`: Valorant, capacity 3,
drawn session id `1234`. -/
def createParamsA : CreateParams :=
  { guildId := "gA", channelId := "cmdA", userId := "alice", userTag := "aliceTag",
    hasManageChannels := true, game := "Valorant", platform := "PC",
    players := 3, gametag := "atag", activity := "Normale",
    description := none, twitchRaw := none, twitchMatches := true,
    sessionId := "1234" }

def sampleEnvA : CreateEnv :=
  { categoryId := "catA", textChannelId := "txtA", voiceChannelId := "vocA",
    infoTextChannelId := "infA", infoMessageId := "imA",
    commandChannelMessageId := "cmA",
    targetResolvable := fun _ => true, deliverOk := fun _ => true }

def stAfterCreate : BotState :=
  (handleLFGCommand emptyState createParamsA sampleEnvA "2024-01-01").2

/-- `bob` and then `carl` join session `1234`, filling it (3 of 3). -/
def stAfterJoins : BotState :=
  (handleJoinButton
    (handleJoinButton stAfterCreate "bob" "1234" (fun _ => true)).2
    "carl" "1234" (fun _ => true)).2

/-- The capacity of full session `1234` is then lowered to 1 via
`/modify_lfg`. -/
def stAfterLower : BotState :=
  (handleModifyLFGCommand stAfterJoins "gA" "alice" true "1234" (some 1) none).2

/-- A registry holding one live session `1234` (owned by `alice` in `gA`,
capacity 4, roster just the organizer). -/
def sessionA : Session :=
  { userId := "alice", user := "aliceTag", game := "Valorant", platform := "PC",
    activity := "Normale", gametag := "atag", description := "Pas de description",
    twitchUrl := none, date := "2024-01-01", players := 4,
    categoryId := "catA", voiceChannelId := "vocA", textChannelId := "txtA",
    infoTextChannelId := "infA", infoMessageId := "imA", commandChannelId := "cmdA",
    commandChannelMessageId := "cmA", guildId := "gA" }

def stWithA : BotState :=
  { lfgSessions := [("1234", sessionA)],
    lfgJoinedUsers := [("1234", ["alice"])],
    webhookChannels := [], guildGameFilters := [],
    totalSessions := 1, totalPlayers := 4 }

/-- Like `stWithA` but with an announcement target registered for guild
`gB`. -/
def stWithATarget : BotState :=
  { stWithA with webhookChannels := [("gB", "chanB")] }

/-- A second `/lfg` invocation, by `bob` in guild `gB`, that happens to
draw the same 4-digit id `1234`. -/
def createParamsB : CreateParams :=
  { guildId := "gB", channelId := "cmdB", userId := "bob", userTag := "bobTag",
    hasManageChannels := true, game := "Fortnite", platform := "PC",
    players := 2, gametag := "btag", activity := "Fun",
    description := none, twitchRaw := none, twitchMatches := true,
    sessionId := "1234" }

def sampleEnvB : CreateEnv :=
  { categoryId := "catB", textChannelId := "txtB", voiceChannelId := "vocB",
    infoTextChannelId := "infB", infoMessageId := "imB",
    commandChannelMessageId := "cmB",
    targetResolvable := fun _ => true, deliverOk := fun _ => true }

/-! ## Claims -/

/-- Claim C4: for every actor, within one rolling 60-second window exactly
`rlLimit` (5) admission attempts succeed — starting from an empty window,
all attempts lying mutually within the window length, the first five are
accepted and every further one is rejected; a rejected attempt stores the
pruned list unchanged, recording no timestamp; and the admission decision
is taken against the count after pruning timestamps older than the
window. -/
theorem c4_rate_limiter_quota :
    (∀ ts : List Nat, (∀ a ∈ ts, ∀ b ∈ ts, a - b < rlInterval) →
        (runRateLimit ts []).1 =
          List.replicate (min ts.length rlLimit) true
            ++ List.replicate (ts.length - rlLimit) false)
    ∧ (∀ (now : Nat) (st : List Nat), (checkRateLimit now st).1 = false →
        (checkRateLimit now st).2 = st.filter (fun ts => now - ts < rlInterval))
    ∧ (∀ (now : Nat) (st : List Nat), (checkRateLimit now st).1 = true
          ↔ (st.filter (fun ts => now - ts < rlInterval)).length < rlLimit) := by
  refine ⟨?_, ?_, ?_⟩
  · intro ts hmut
    have := runRateLimit_flags ts [] (by simp) hmut
    simpa using this
  · intro now st h
    by_cases hq : rlLimit ≤ (st.filter (fun ts => now - ts < rlInterval)).length
    · simp [checkRateLimit, hq]
    · simp [checkRateLimit, hq] at h
  · intro now st
    by_cases hq : rlLimit ≤ (st.filter (fun ts => now - ts < rlInterval)).length
    · have hv : (checkRateLimit now st).1 = false := by simp [checkRateLimit, hq]
      rw [hv]
      constructor
      · intro h; exact absurd h (by simp)
      · intro h; omega
    · have hv : (checkRateLimit now st).1 = true := by simp [checkRateLimit, hq]
      rw [hv]
      constructor
      · intro _; omega
      · intro _; rfl

/-- Witness for C4 at a concrete run: six attempts in one window, the
first five accepted and the sixth rejected. -/
theorem c4_rate_limiter_quota_witness :
    (runRateLimit [0, 10, 20, 30, 40, 50] []).1
        = List.replicate (min 6 rlLimit) true ++ List.replicate (6 - rlLimit) false
      ∧ (runRateLimit [0, 10, 20, 30, 40, 50] []).1
        = [true, true, true, true, true, false] := by
  constructor
  · exact c4_rate_limiter_quota.1 [0, 10, 20, 30, 40, 50] (by decide)
  · decide

/-- Claim C3: for an armed idle timer, a later voice event on the
session's channel before the grace deadline cancels that deadline (the
deletion callback at the old deadline is a no-op and the session stays
live); arming and then letting the full grace period elapse with the
channel empty deletes the session exactly once (no later event deletes
again); and re-arming always replaces so at most one timer is armed at any
point. -/
theorem c3_idle_scheduler :
    (∀ (s : SchedState) (t0 t1 : Nat) (occ : Bool), s.live = true → t0 < t1 →
        (schedRun s [.voiceUpdate t0, .voiceUpdate t1,
            .fire (t0 + gracePeriod) occ]).deleted = s.deleted
          ∧ (schedRun s [.voiceUpdate t0, .voiceUpdate t1,
              .fire (t0 + gracePeriod) occ]).live = true)
    ∧ (∀ (s : SchedState) (t0 : Nat) (evs : List SchedEv), s.live = true →
        (schedRun s [.voiceUpdate t0, .fire (t0 + gracePeriod) false]).deleted
            = s.deleted + 1
          ∧ (schedRun s [.voiceUpdate t0, .fire (t0 + gracePeriod) false]).live = false
          ∧ (schedRun (schedRun s [.voiceUpdate t0, .fire (t0 + gracePeriod) false])
              evs).deleted = s.deleted + 1)
    ∧ (∀ (s : SchedState) (evs : List SchedEv),
        s.pending.length ≤ 1 → (schedRun s evs).pending.length ≤ 1) := by
  refine ⟨?_, ?_, ?_⟩
  · intro s t0 t1 occ hl hlt
    have hne : ¬ (t1 + gracePeriod = t0 + gracePeriod) := by omega
    have hne2 : ¬ (t0 = t1) := by omega
    constructor <;>
      simp [schedRun, schedStep, hl, List.contains_cons, hne, hne2]
  · intro s t0 evs hl
    have hfired : schedRun s [.voiceUpdate t0, .fire (t0 + gracePeriod) false]
        = { live := false, pending := [], deleted := s.deleted + 1 } := by
      simp [schedRun, schedStep, hl, List.contains_cons]
    refine ⟨by simp [hfired], by simp [hfired], ?_⟩
    rw [hfired, schedRun_dead evs _ rfl rfl]
  · intro s evs h
    exact schedRun_pending_le evs s h

/-- Witness for C3 at concrete inputs: a live session with no timer,
armed at t=0; a voice event at t=7 cancels the 300000 ms deadline; armed
then left empty it is deleted exactly once; and a concrete event mix keeps
at most one timer armed. -/
theorem c3_idle_scheduler_witness :
    ((schedRun ⟨true, [], 0⟩ [.voiceUpdate 0, .voiceUpdate 7,
        .fire (0 + gracePeriod) true]).deleted = 0
      ∧ (schedRun ⟨true, [], 0⟩ [.voiceUpdate 0, .voiceUpdate 7,
          .fire (0 + gracePeriod) true]).live = true)
    ∧ ((schedRun ⟨true, [], 0⟩ [.voiceUpdate 3, .fire (3 + gracePeriod) false]).deleted = 1
      ∧ (schedRun (schedRun ⟨true, [], 0⟩ [.voiceUpdate 3, .fire (3 + gracePeriod) false])
          [.voiceUpdate 9, .fire (9 + gracePeriod) false]).deleted = 1)
    ∧ (schedRun ⟨true, [], 0⟩ [.voiceUpdate 1, .voiceUpdate 2,
        .fire (2 + gracePeriod) true]).pending.length ≤ 1 := by
  refine ⟨?_, ?_, ?_⟩
  · exact c3_idle_scheduler.1 ⟨true, [], 0⟩ 0 7 true rfl (by decide)
  · have h := c3_idle_scheduler.2.1 ⟨true, [], 0⟩ 3
      [.voiceUpdate 9, .fire (9 + gracePeriod) false] rfl
    exact ⟨h.1, h.2.2⟩
  · exact c3_idle_scheduler.2.2 ⟨true, [], 0⟩
      [.voiceUpdate 1, .voiceUpdate 2, .fire (2 + gracePeriod) true] (by decide)

/-- Claim C6: an empty or absent game filter lets every game through; a
non-empty filter not containing the requested game makes `/lfg` reject,
reporting exactly the allowed-list, with the state unchanged (no session
created). -/
theorem c6_game_filter :
    (∀ (filters : List (String × List String)) (guildId game : String),
        (mapGet filters guildId = none ∨ mapGet filters guildId = some []) →
        isGameAllowedForGuild filters guildId game = true)
    ∧ (∀ (st : BotState) (p : CreateParams) (env : CreateEnv) (date : String),
        p.hasManageChannels = true →
        (p.twitchRaw.isSome && !p.twitchMatches) = false →
        getGuildGameFilter st.guildGameFilters p.guildId ≠ [] →
        (getGuildGameFilter st.guildGameFilters p.guildId).contains p.game = false →
        handleLFGCommand st p env date
          = (.gameNotAllowed (getGuildGameFilter st.guildGameFilters p.guildId), st)) := by
  constructor
  · intro filters guildId game h
    rcases h with h | h <;> simp [isGameAllowedForGuild, getGuildGameFilter, h]
  · intro st p env date hperm htw hne hcont
    have hallow : isGameAllowedForGuild st.guildGameFilters p.guildId p.game = false := by
      simp only [isGameAllowedForGuild, Bool.or_eq_false_iff]
      constructor
      · simpa [List.length_eq_zero] using hne
      · exact hcont
    simp [handleLFGCommand, hperm, htw, hallow]

/-- Witness for C6: a guild with filter `["Valorant"]` rejects a
Counter-Strike 2 session, reporting `["Valorant"]`, and an absent filter
lets any game through. -/
theorem c6_game_filter_witness :
    isGameAllowedForGuild [] "gA" "Counter-Strike 2" = true
      ∧ handleLFGCommand
          { lfgSessions := [], lfgJoinedUsers := [], webhookChannels := [],
            guildGameFilters := [("gA", ["Valorant"])],
            totalSessions := 0, totalPlayers := 0 }
          { guildId := "gA", channelId := "cmd", userId := "u1", userTag := "u1tag",
            hasManageChannels := true, game := "Counter-Strike 2", platform := "PC",
            players := 3, gametag := "tag", activity := "Normale",
            description := none, twitchRaw := none, twitchMatches := true,
            sessionId := "1234" }
          { categoryId := "cat", textChannelId := "txt", voiceChannelId := "voc",
            infoTextChannelId := "inf", infoMessageId := "im",
            commandChannelMessageId := "cm",
            targetResolvable := fun _ => true, deliverOk := fun _ => true }
          "2024-01-01"
        = (.gameNotAllowed ["Valorant"],
           { lfgSessions := [], lfgJoinedUsers := [], webhookChannels := [],
             guildGameFilters := [("gA", ["Valorant"])],
             totalSessions := 0, totalPlayers := 0 }) := by
  constructor
  · exact c6_game_filter.1 [] "gA" "Counter-Strike 2" (Or.inl rfl)
  · exact c6_game_filter.2 _ _ _ _ rfl rfl (by decide) (by decide)

/-- Counterexample to claim C5: the 4-digit id drawn at creation is used
without any collision check.  With session `1234` live, a create that
draws `1234` succeeds and silently replaces the live session's registry
entry. -/
theorem c5_collision_counterexample :
    (handleLFGCommand stWithA createParamsB sampleEnvB "2024-01-02").1
        = .created "1234" []
      ∧ mapGet stWithA.lfgSessions "1234" = some sessionA
      ∧ mapGet (handleLFGCommand stWithA createParamsB sampleEnvB
            "2024-01-02").2.lfgSessions "1234" ≠ some sessionA := by
  refine ⟨rfl, rfl, ?_⟩
  intro h
  simp [handleLFGCommand, createParamsB, stWithA, sessionA, createSessionData,
    sampleEnvB, mapSet, mapGet] at h

/-- Claim C5 as amended: session creation draws a random 4-digit id and
inserts at it unconditionally — the new session is stored at the drawn id
whether or not that id is live (a live session with the same id is
silently overwritten), while every other id's entry is untouched. -/
theorem c5_id_overwrite_semantics :
    ∀ (st : BotState) (p : CreateParams) (env : CreateEnv) (date : String),
      p.hasManageChannels = true →
      (p.twitchRaw.isSome && !p.twitchMatches) = false →
      isGameAllowedForGuild st.guildGameFilters p.guildId p.game = true →
      (handleLFGCommand st p env date).1
          = .created p.sessionId
              (fanout st.webhookChannels st.guildGameFilters p.guildId p.game env)
        ∧ mapGet (handleLFGCommand st p env date).2.lfgSessions p.sessionId
            = some (createSessionData p env date)
        ∧ ∀ k, k ≠ p.sessionId →
            mapGet (handleLFGCommand st p env date).2.lfgSessions k
              = mapGet st.lfgSessions k := by
  intro st p env date h1 h2 h3
  refine ⟨?_, ?_, ?_⟩
  · simp [handleLFGCommand, h1, h2, h3]
  · simp [handleLFGCommand, h1, h2, h3, mapGet_mapSet_self]
  · intro k hk
    simp [handleLFGCommand, h1, h2, h3, mapGet_mapSet_ne _ _ _ _ hk]

/-- Witness for the amended C5 at the concrete collision: the drawn id
`1234` ends up bound to the new session. -/
theorem c5_id_overwrite_semantics_witness :
    mapGet (handleLFGCommand stWithA createParamsB sampleEnvB
          "2024-01-02").2.lfgSessions "1234"
        = some (createSessionData createParamsB sampleEnvB "2024-01-02")
      ∧ createParamsB.hasManageChannels = true :=
  ⟨(c5_id_overwrite_semantics stWithA createParamsB sampleEnvB "2024-01-02"
      rfl rfl rfl).2.1, rfl⟩

/-- Counterexample to claim C7: a roster change does not fan out.  With an
announcement target registered for guild `gB` (empty filter, resolvable),
a successful join to `gA`-owned session `1234` attempts no delivery at
all, while the claimed fan-out over the same registry would attempt
exactly one delivery to `gB`. -/
theorem c7_join_no_fanout_counterexample :
    (handleJoinButton stWithATarget "bob" "1234" (fun _ => true)).1
        = .joined 2 []
      ∧ fanout stWithATarget.webhookChannels stWithATarget.guildGameFilters
          "gA" "Valorant" sampleEnvA = [("gB", true)]
      ∧ ([] : List (String × Bool)) ≠ [("gB", true)] := by
  refine ⟨rfl, rfl, by simp⟩

/-- Claim C7 as amended: announcement fan-out happens on session creation
only (a join touches no announcement target); on creation it iterates
exactly the registered targets other than the owning community that pass
the target's game filter and resolve, attempts each remaining delivery
independently with that target's own outcome, and the resulting registry
state does not depend on any delivery outcome (a failure aborts nothing
and changes no session or roster state). -/
theorem c7_fanout_independence :
    (∀ (webhooks : List (String × String)) (filters : List (String × List String))
        (ownGuildId game : String) (env : CreateEnv),
        fanout webhooks filters ownGuildId game env
          = (webhooks.filter (fun e =>
                (e.1 != ownGuildId) && isGameAllowedForGuild filters e.1 game
                  && env.targetResolvable e.1)).map
              (fun e => (e.1, env.deliverOk e.1)))
    ∧ (∀ (st : BotState) (p : CreateParams) (env : CreateEnv) (date : String)
        (ok2 : String → Bool),
        (handleLFGCommand st p { env with deliverOk := ok2 } date).2
          = (handleLFGCommand st p env date).2)
    ∧ (∀ (st : BotState) (uid sid : String) (vr : String → Bool)
        (n : Nat) (ds : List (String × Bool)),
        (handleJoinButton st uid sid vr).1 = .joined n ds → ds = []) := by
  refine ⟨fanout_eq_filter_map, ?_, ?_⟩
  · intro st p env date ok2
    by_cases h1 : p.hasManageChannels
    · by_cases h2 : (p.twitchRaw.isSome && !p.twitchMatches) = true
      · simp [handleLFGCommand, h1, h2]
      · by_cases h3 : isGameAllowedForGuild st.guildGameFilters p.guildId p.game
        · simp [handleLFGCommand, h1, h2, h3, createSessionData]
        · simp [handleLFGCommand, h1, h2, h3]
    · simp [handleLFGCommand, h1]
  · intro st uid sid vr n ds h
    cases hs : mapGet st.lfgSessions sid with
    | none => simp [handleJoinButton, hs] at h
    | some session =>
        by_cases hc : uid ∈ (mapGet st.lfgJoinedUsers sid).getD []
        · simp [handleJoinButton, hs, hc] at h
        · by_cases hf : session.players
              ≤ (((mapGet st.lfgJoinedUsers sid).getD []).length : Int)
          · simp [handleJoinButton, hs, hc, hf] at h
          · cases hv : vr session.voiceChannelId with
            | false => simp [handleJoinButton, hs, hc, hf, hv] at h
            | true =>
                simp [handleJoinButton, hs, hc, hf, hv] at h
                exact h.2

/-- Witness for the amended C7 at concrete inputs: with one registered
target for `gB`, creation from `gA` attempts exactly the delivery to
`gB`, and the post-state is the same whether that delivery succeeds or
fails. -/
theorem c7_fanout_independence_witness :
    fanout [("gB", "chanB")] [] "gA" "Valorant" sampleEnvA = [("gB", true)]
      ∧ (handleLFGCommand stWithATarget createParamsA
            { sampleEnvA with deliverOk := fun _ => false } "2024-01-03").2
          = (handleLFGCommand stWithATarget createParamsA sampleEnvA "2024-01-03").2
      ∧ ([] : List (String × Bool)) = [] := by
  refine ⟨?_, ?_, ?_⟩
  · rw [c7_fanout_independence.1 [("gB", "chanB")] [] "gA" "Valorant" sampleEnvA]
    rfl
  · exact c7_fanout_independence.2.1 stWithATarget createParamsA sampleEnvA
      "2024-01-03" (fun _ => false)
  · exact c7_fanout_independence.2.2 stWithATarget "bob" "1234" (fun _ => true)
      2 [] rfl

/-- Counterexample to claim C2: a join attempt by an actor not in the
roster, on a session with free capacity (roster 1 of 4), is nevertheless
rejected — with the roster unchanged — when the session's voice channel
does not resolve, where the claim requires the actor to be appended. -/
theorem c2_join_counterexample :
    mapGet stWithA.lfgJoinedUsers "1234" = some ["alice"]
      ∧ (["alice"].contains "bob") = false
      ∧ (mapGet stWithA.lfgSessions "1234").map Session.players = some 4
      ∧ handleJoinButton stWithA "bob" "1234" (fun _ => false)
          = (.voiceMissing, stWithA) := by
  refine ⟨rfl, by decide, rfl, rfl⟩

/-- Claim C2 as amended: on an existing session, a join by an actor
already in the roster returns `AlreadyJoined` with the state unchanged; a
join with the roster at or above capacity (`>=`, not just `==`) returns
`Full` with the state unchanged; otherwise, if the session's voice channel
resolves, the actor is appended exactly once (the stored roster becomes
`roster ++ [actor]`, in which the actor occurs once) and the state is
stored back; if the voice channel does not resolve the join is rejected
with the state unchanged. -/
theorem c2_join_semantics :
    ∀ (st : BotState) (uid sid : String) (vr : String → Bool) (session : Session),
      mapGet st.lfgSessions sid = some session →
      (uid ∈ (mapGet st.lfgJoinedUsers sid).getD [] →
          handleJoinButton st uid sid vr = (.alreadyJoined, st))
        ∧ (uid ∉ (mapGet st.lfgJoinedUsers sid).getD [] →
            session.players ≤ (((mapGet st.lfgJoinedUsers sid).getD []).length : Int) →
            handleJoinButton st uid sid vr = (.full, st))
        ∧ (uid ∉ (mapGet st.lfgJoinedUsers sid).getD [] →
            (((mapGet st.lfgJoinedUsers sid).getD []).length : Int) < session.players →
            vr session.voiceChannelId = false →
            handleJoinButton st uid sid vr = (.voiceMissing, st))
        ∧ (uid ∉ (mapGet st.lfgJoinedUsers sid).getD [] →
            (((mapGet st.lfgJoinedUsers sid).getD []).length : Int) < session.players →
            vr session.voiceChannelId = true →
            handleJoinButton st uid sid vr
                = (.joined (((mapGet st.lfgJoinedUsers sid).getD []).length + 1) [],
                   { st with lfgJoinedUsers := mapSet st.lfgJoinedUsers sid (((mapGet st.lfgJoinedUsers sid).getD []) ++ [uid]) })
              ∧ (((mapGet st.lfgJoinedUsers sid).getD []) ++ [uid]).count uid = 1) := by
  intro st uid sid vr session hs
  refine ⟨?_, ?_, ?_, ?_⟩
  · intro hc
    simp [handleJoinButton, hs, hc]
  · intro hc hf
    simp [handleJoinButton, hs, hc, hf]
  · intro hc hf hv
    simp [handleJoinButton, hs, hc, not_le.mpr hf, hv]
  · intro hc hf hv
    constructor
    · simp [handleJoinButton, hs, hc, not_le.mpr hf, hv]
    · simp [List.count_append, List.count_eq_zero.mpr hc]

/-- Witness for the amended C2 on session `1234` of the concrete registry:
`alice` rejoining is `AlreadyJoined`; `bob` joining with the voice channel
resolvable is appended exactly once. -/
theorem c2_join_semantics_witness :
    handleJoinButton stWithA "alice" "1234" (fun _ => true) = (.alreadyJoined, stWithA)
      ∧ handleJoinButton stWithA "bob" "1234" (fun _ => true)
          = (.joined 2 [],
             { stWithA with lfgJoinedUsers := [("1234", ["alice", "bob"])] }) := by
  have h := c2_join_semantics stWithA "bob" "1234" (fun _ => true) sessionA rfl
  constructor
  · exact (c2_join_semantics stWithA "alice" "1234" (fun _ => true) sessionA rfl).1
      (by decide)
  · have h4 := (h.2.2.2 (by decide) (by decide) rfl).1
    simpa [stWithA, mapGet, mapSet] using h4

/-- Replacing (or inserting) a session whose capacity bounds the current
roster at its key preserves the roster-capacity invariant; the stats
counter is irrelevant to it. -/
theorem rosterInvB_set_session (st : BotState) (k : String) (v : Session) (tp : Int)
    (hinv : rosterInvB st = true)
    (hcap : (((mapGet st.lfgJoinedUsers k).getD []).length : Int) ≤ v.players) :
    rosterInvB { st with lfgSessions := mapSet st.lfgSessions k v, totalPlayers := tp } = true := by
  rw [rosterInvB, List.all_eq_true] at hinv ⊢
  intro e he
  simp only at he ⊢
  by_cases hk : e.1 = k
  · rw [hk, mapGet_mapSet_self]
    simpa using hcap
  · rw [mapGet_mapSet_ne _ _ _ _ hk]
    rcases mem_mapSet he with h | h
    · exact absurd (by rw [h]) hk
    · exact hinv e h

/-- Storing, at the key of a live session, a roster bounded by that
session's capacity preserves the roster-capacity invariant. -/
theorem rosterInvB_set_roster (st : BotState) (k : String) (ju : List String)
    (session : Session) (hs : mapGet st.lfgSessions k = some session)
    (hinv : rosterInvB st = true)
    (hcap : ((ju.length : Int) ≤ session.players)) :
    rosterInvB { st with lfgJoinedUsers := mapSet st.lfgJoinedUsers k ju } = true := by
  rw [rosterInvB, List.all_eq_true] at hinv ⊢
  intro e he
  simp only at he ⊢
  by_cases hk : e.1 = k
  · rw [hk, hs, mapGet_mapSet_self]
    simpa using hcap
  · rw [mapGet_mapSet_ne _ _ _ _ hk]
    exact hinv e he

/-- Counterexample to claim C1: the roster-capacity invariant is not
maintained across capacity edits.  Built with the operations themselves: a
capacity-3 session is created and filled (invariant holds), then
`/modify_lfg` lowers its capacity to 1; the three-member roster stays, so
the live session has more joined members than its `players` value. -/
theorem c1_capacity_lowering_counterexample :
    rosterInvB stAfterJoins = true
      ∧ (mapGet stAfterLower.lfgSessions "1234").map Session.players = some 1
      ∧ (mapGet stAfterLower.lfgJoinedUsers "1234").getD []
          = ["alice", "bob", "carl"]
      ∧ rosterInvB stAfterLower = false := by
  refine ⟨by decide, by decide, by decide, by decide⟩

/-- Claim C1 as amended: joins always preserve `roster.size ≤ capacity`
(a join is rejected before exceeding it), and a modify preserves it
provided any new capacity it sets is not below the current roster size;
the invariant can be violated only by a capacity edit lowering `players`
below the roster size, whose excess members are not evicted. -/
theorem c1_roster_capacity_invariant :
    (∀ (st : BotState) (uid sid : String) (vr : String → Bool),
        rosterInvB st = true → rosterInvB (handleJoinButton st uid sid vr).2 = true)
    ∧ (∀ (st : BotState) (g u : String) (hm : Bool) (sid : String)
        (np : Option Int) (nd : Option String),
        rosterInvB st = true →
        (∀ p : Int, np = some p → p ≠ 0 →
            (((mapGet st.lfgJoinedUsers sid).getD []).length : Int) ≤ p) →
        rosterInvB (handleModifyLFGCommand st g u hm sid np nd).2 = true) := by
  constructor
  · intro st uid sid vr hinv
    cases hs : mapGet st.lfgSessions sid with
    | none => simpa [handleJoinButton, hs] using hinv
    | some session =>
        by_cases hc : uid ∈ (mapGet st.lfgJoinedUsers sid).getD []
        · simpa [handleJoinButton, hs, hc] using hinv
        · by_cases hf : session.players
              ≤ (((mapGet st.lfgJoinedUsers sid).getD []).length : Int)
          · simpa [handleJoinButton, hs, hc, hf] using hinv
          · cases hv : vr session.voiceChannelId with
            | false => simpa [handleJoinButton, hs, hc, hf, hv] using hinv
            | true =>
                have hres : (handleJoinButton st uid sid vr).2
                    = { st with lfgJoinedUsers := mapSet st.lfgJoinedUsers sid ((mapGet st.lfgJoinedUsers sid).getD [] ++ [uid]) } := by
                  simp [handleJoinButton, hs, hc, hf, hv]
                rw [hres]
                refine rosterInvB_set_roster st sid _ session hs hinv ?_
                have hlt := not_le.mp hf
                simp only [List.length_append, List.length_cons, List.length_nil]
                push_cast
                omega
  · intro st g u hm sid np nd hinv hsafe
    cases hm with
    | false => simpa [handleModifyLFGCommand] using hinv
    | true =>
        by_cases h2 : (!(jsTruthyInt np) && !(jsTruthyStr nd)) = true
        · simpa [handleModifyLFGCommand, h2] using hinv
        · cases hs : mapGet st.lfgSessions sid with
          | none => simpa [handleModifyLFGCommand, h2, hs] using hinv
          | some s0 =>
              have hs0cap : (((mapGet st.lfgJoinedUsers sid).getD []).length : Int)
                  ≤ s0.players := by
                have hmem := mapGet_mem hs
                rw [rosterInvB, List.all_eq_true] at hinv
                have h := hinv (sid, s0) hmem
                simp only [hs] at h
                simpa using h
              cases np with
              | none =>
                  have hd : jsTruthyStr nd = true := by
                    simpa [jsTruthyInt] using h2
                  have hres : (handleModifyLFGCommand st g u true sid none nd).2
                      = { st with lfgSessions := mapSet st.lfgSessions sid { s0 with description := nd.getD "" }, totalPlayers := st.totalPlayers } := by
                    simp [handleModifyLFGCommand, h2, hs, jsTruthyInt, hd]
                  rw [hres]
                  exact rosterInvB_set_session st sid _ _ hinv (by simpa using hs0cap)
              | some p =>
                  by_cases hp : p = 0
                  · have hd : jsTruthyStr nd = true := by
                      simpa [jsTruthyInt, hp] using h2
                    have hres : (handleModifyLFGCommand st g u true sid (some p) nd).2
                        = { st with lfgSessions := mapSet st.lfgSessions sid { s0 with description := nd.getD "" }, totalPlayers := st.totalPlayers } := by
                      simp [handleModifyLFGCommand, h2, hs, jsTruthyInt, hp, hd]
                    rw [hres]
                    exact rosterInvB_set_session st sid _ _ hinv (by simpa using hs0cap)
                  · have hcap := hsafe p rfl hp
                    by_cases hd : jsTruthyStr nd
                    · have hres : (handleModifyLFGCommand st g u true sid (some p) nd).2
                          = { st with lfgSessions := mapSet st.lfgSessions sid { s0 with players := p, description := nd.getD "" }, totalPlayers := st.totalPlayers - s0.players + p } := by
                        simp [handleModifyLFGCommand, h2, hs, jsTruthyInt, hp, hd]
                      rw [hres]
                      exact rosterInvB_set_session st sid _ _ hinv (by simpa using hcap)
                    · have hres : (handleModifyLFGCommand st g u true sid (some p) nd).2
                          = { st with lfgSessions := mapSet st.lfgSessions sid { s0 with players := p }, totalPlayers := st.totalPlayers - s0.players + p } := by
                        simp [handleModifyLFGCommand, h2, hs, jsTruthyInt, hp, hd]
                      rw [hres]
                      exact rosterInvB_set_session st sid _ _ hinv (by simpa using hcap)

/-- Witness for the amended C1 on the concrete filled session: a fourth
join attempt and a non-lowering modify both keep the invariant. -/
theorem c1_roster_capacity_invariant_witness :
    rosterInvB (handleJoinButton stAfterJoins "dave" "1234" (fun _ => true)).2 = true
      ∧ rosterInvB (handleModifyLFGCommand stAfterJoins "gA" "alice" true "1234"
          (some 5) none).2 = true := by
  constructor
  · exact c1_roster_capacity_invariant.1 stAfterJoins "dave" "1234" (fun _ => true)
      (by decide)
  · exact c1_roster_capacity_invariant.2 stAfterJoins "gA" "alice" true "1234"
      (some 5) none (by decide)
      (by intro p hp hpz; cases hp; decide)

/-- Counterexample to claim C8: with `bob` in the roster of session `1234`
but in no voice channel, the organizer's kick and ban are rejected with
the not-in-voice error and the roster is unchanged — the operation does
not remove the target nor report success. -/
theorem c8_remove_counterexample :
    "bob" ∈ (mapGet stAfterJoins.lfgJoinedUsers "1234").getD []
      ∧ handleKickMemberCommand stAfterJoins "alice" "1234" "bob"
          (fun _ => true) none true = (.notInVoice, stAfterJoins)
      ∧ handleBanMemberCommand stAfterJoins "alice" "1234" "bob"
          (fun _ => true) none true = (.notInVoice, stAfterJoins) := by
  refine ⟨by decide, rfl, rfl⟩

/-- Claim C8 as amended: a remove (kick or ban) whose target is not in
the session's voice channel — the channel is missing from the cache or the
target's voice channel differs — is rejected with a not-present error and
the whole state, the roster included, is unchanged, regardless of whether
the target is in the roster. -/
theorem c8_remove_requires_occupancy :
    ∀ (st : BotState) (sid tgt : String) (vce : String → Bool)
      (tv : Option String) (ok : Bool) (session : Session),
      mapGet st.lfgSessions sid = some session →
      (vce session.voiceChannelId = false ∨ tv ≠ some session.voiceChannelId) →
      handleKickMemberCommand st session.userId sid tgt vce tv ok = (.notInVoice, st)
        ∧ handleBanMemberCommand st session.userId sid tgt vce tv ok
            = (.notInVoice, st) := by
  intro st sid tgt vce tv ok session hs hocc
  rcases hocc with h | h <;>
    exact ⟨by simp [handleKickMemberCommand, hs, h],
           by simp [handleBanMemberCommand, hs, h]⟩

/-- Witness for the amended C8: the organizer `alice` kicking or banning
`bob`, who is in the roster but in no voice channel, gets the
not-in-voice rejection with the state unchanged. -/
theorem c8_remove_requires_occupancy_witness :
    handleKickMemberCommand stWithA "alice" "1234" "bob" (fun _ => true) none true
        = (.notInVoice, stWithA)
      ∧ handleBanMemberCommand stWithA "alice" "1234" "bob" (fun _ => true) none true
        = (.notInVoice, stWithA) := by
  have h := c8_remove_requires_occupancy stWithA "1234" "bob" (fun _ => true)
    none true sessionA rfl (Or.inr (by decide))
  simpa [sessionA] using h

/-- Counterexample to claim C9: the aggregate player counter is not
monotonic.  Lowering the capacity of session `1234` from 3 to 1 via
`/modify_lfg` drops `totalPlayers` from 3 to 1. -/
theorem c9_counter_decrease_counterexample :
    stAfterJoins.totalPlayers = 3
      ∧ stAfterLower.totalPlayers = 1
      ∧ stAfterLower.totalPlayers < stAfterJoins.totalPlayers := by
  refine ⟨by decide, by decide, by decide⟩

/-- Claim C9 as amended: `totalSessions` is mutated only by session
creation, which increments it; `totalPlayers` is mutated only by creation
(by `+ players`) and by a capacity edit (by exactly `new - old`, which can
decrease it); join, kick, ban and deletion leave both counters
unchanged. -/
theorem c9_counters_mutation :
    (∀ (st : BotState) (p : CreateParams) (env : CreateEnv) (date : String),
        ((handleLFGCommand st p env date).2.totalSessions = st.totalSessions
            ∧ (handleLFGCommand st p env date).2.totalPlayers = st.totalPlayers)
          ∨ ((handleLFGCommand st p env date).2.totalSessions = st.totalSessions + 1
            ∧ (handleLFGCommand st p env date).2.totalPlayers
                = st.totalPlayers + p.players))
    ∧ (∀ (st : BotState) (g u : String) (hm : Bool) (sid : String)
        (np : Option Int) (nd : Option String),
        (handleModifyLFGCommand st g u hm sid np nd).2.totalSessions = st.totalSessions
          ∧ ((handleModifyLFGCommand st g u hm sid np nd).2.totalPlayers
                = st.totalPlayers
            ∨ ∃ s p, mapGet st.lfgSessions sid = some s ∧ np = some p
                ∧ (handleModifyLFGCommand st g u hm sid np nd).2.totalPlayers
                    = st.totalPlayers - s.players + p))
    ∧ (∀ (st : BotState) (uid sid : String) (vr : String → Bool),
        (handleJoinButton st uid sid vr).2.totalSessions = st.totalSessions
          ∧ (handleJoinButton st uid sid vr).2.totalPlayers = st.totalPlayers)
    ∧ (∀ (st : BotState) (a b c : String) (vce : String → Bool)
        (tv : Option String) (ok : Bool),
        (handleKickMemberCommand st a b c vce tv ok).2.totalSessions = st.totalSessions
          ∧ (handleKickMemberCommand st a b c vce tv ok).2.totalPlayers
              = st.totalPlayers)
    ∧ (∀ (st : BotState) (a b c : String) (vce : String → Bool)
        (tv : Option String) (ok : Bool),
        (handleBanMemberCommand st a b c vce tv ok).2.totalSessions = st.totalSessions
          ∧ (handleBanMemberCommand st a b c vce tv ok).2.totalPlayers
              = st.totalPlayers)
    ∧ (∀ (st : BotState) (sid : String),
        (deleteLFGSession st sid).totalSessions = st.totalSessions
          ∧ (deleteLFGSession st sid).totalPlayers = st.totalPlayers) := by
  refine ⟨?_, ?_, ?_, ?_, ?_, ?_⟩
  · intro st p env date
    by_cases h1 : p.hasManageChannels
    · by_cases h2 : (p.twitchRaw.isSome && !p.twitchMatches) = true
      · left; simp [handleLFGCommand, h1, h2]
      · by_cases h3 : isGameAllowedForGuild st.guildGameFilters p.guildId p.game
        · right; simp [handleLFGCommand, h1, h2, h3]
        · left; simp [handleLFGCommand, h1, h2, h3]
    · left; simp [handleLFGCommand, h1]
  · intro st g u hm sid np nd
    cases hm with
    | false => simp [handleModifyLFGCommand]
    | true =>
        by_cases h2 : (!(jsTruthyInt np) && !(jsTruthyStr nd)) = true
        · simp [handleModifyLFGCommand, h2]
        · cases hs : mapGet st.lfgSessions sid with
          | none => simp [handleModifyLFGCommand, h2, hs]
          | some s0 =>
              cases np with
              | none =>
                  have hd : jsTruthyStr nd = true := by
                    simpa [jsTruthyInt] using h2
                  constructor
                  · simp [handleModifyLFGCommand, h2, hs, jsTruthyInt, hd]
                  · left; simp [handleModifyLFGCommand, h2, hs, jsTruthyInt, hd]
              | some p =>
                  by_cases hp : p = 0
                  · have hd : jsTruthyStr nd = true := by
                      simpa [jsTruthyInt, hp] using h2
                    constructor
                    · simp [handleModifyLFGCommand, h2, hs, jsTruthyInt, hp, hd]
                    · left; simp [handleModifyLFGCommand, h2, hs, jsTruthyInt, hp, hd]
                  · constructor
                    · by_cases hd : jsTruthyStr nd <;>
                        simp [handleModifyLFGCommand, h2, hs, jsTruthyInt, hp, hd]
                    · right
                      refine ⟨s0, p, ?_, ?_, ?_⟩
                      · rfl
                      · rfl
                      · by_cases hd : jsTruthyStr nd <;>
                          simp [handleModifyLFGCommand, h2, hs, jsTruthyInt, hp, hd]
  · intro st uid sid vr
    cases hs : mapGet st.lfgSessions sid with
    | none => simp [handleJoinButton, hs]
    | some session =>
        by_cases hc : uid ∈ (mapGet st.lfgJoinedUsers sid).getD []
        · simp [handleJoinButton, hs, hc]
        · by_cases hf : session.players
              ≤ (((mapGet st.lfgJoinedUsers sid).getD []).length : Int)
          · simp [handleJoinButton, hs, hc, hf]
          · cases hv : vr session.voiceChannelId <;>
              simp [handleJoinButton, hs, hc, hf, hv]
  · intro st a b c vce tv ok
    cases hs : mapGet st.lfgSessions b with
    | none => simp [handleKickMemberCommand, hs]
    | some session =>
        by_cases h1 : (a != session.userId) = true
        · simp [handleKickMemberCommand, hs, h1]
        · by_cases h2 : (!(vce session.voiceChannelId)
              || tv != some session.voiceChannelId) = true
          · simp [handleKickMemberCommand, hs, h1, h2]
          · by_cases h3 : ok
            · cases hj : mapGet st.lfgJoinedUsers b <;>
                simp [handleKickMemberCommand, hs, h1, h2, h3, hj]
            · simp [handleKickMemberCommand, hs, h1, h2, h3]
  · intro st a b c vce tv ok
    cases hs : mapGet st.lfgSessions b with
    | none => simp [handleBanMemberCommand, hs]
    | some session =>
        by_cases h1 : (a != session.userId) = true
        · simp [handleBanMemberCommand, hs, h1]
        · by_cases h2 : (!(vce session.voiceChannelId)
              || tv != some session.voiceChannelId) = true
          · simp [handleBanMemberCommand, hs, h1, h2]
          · by_cases h3 : ok
            · cases hj : mapGet st.lfgJoinedUsers b <;>
                simp [handleBanMemberCommand, hs, h1, h2, h3, hj]
            · simp [handleBanMemberCommand, hs, h1, h2, h3]
  · intro st sid
    cases hs : mapGet st.lfgSessions sid <;> simp [deleteLFGSession, hs]

/-- Claim C10: `/modify_lfg` authorizes by the invoking member's
ManageChannels permission alone, looks the session id up in the single
global map, and never compares the session's owning community or
organizer with the invoker — so an actor from a different community who is
not the organizer still modifies the session's capacity and description
and shifts the global player-slot counter. -/
theorem c10_modify_cross_community :
    ∀ (st : BotState) (invokerGuild invokerUser sid : String) (p : Int) (d : String)
      (s0 : Session),
      mapGet st.lfgSessions sid = some s0 →
      p ≠ 0 → d ≠ "" →
      invokerGuild ≠ s0.guildId → invokerUser ≠ s0.userId →
      (handleModifyLFGCommand st invokerGuild invokerUser true sid (some p)
            (some d)).1 = .modified
        ∧ (mapGet (handleModifyLFGCommand st invokerGuild invokerUser true sid (some p)
              (some d)).2.lfgSessions sid).map Session.players = some p
        ∧ (mapGet (handleModifyLFGCommand st invokerGuild invokerUser true sid (some p)
              (some d)).2.lfgSessions sid).map Session.description = some d
        ∧ (handleModifyLFGCommand st invokerGuild invokerUser true sid (some p)
              (some d)).2.totalPlayers = st.totalPlayers - s0.players + p := by
  intro st gB uB sid p d s0 hs hp hd _ _
  have ht : jsTruthyInt (some p) = true := by simp [jsTruthyInt, hp]
  have htd : jsTruthyStr (some d) = true := by simp [jsTruthyStr, hd]
  refine ⟨?_, ?_, ?_, ?_⟩ <;>
    simp [handleModifyLFGCommand, hs, ht, htd, mapGet_mapSet_self]

/-- Witness for C10: `mallory`, holding ManageChannels in foreign guild
`gB`, successfully modifies `gA`-owned session `1234` organized by
`alice`, changing its capacity and the global counter. -/
theorem c10_modify_cross_community_witness :
    (handleModifyLFGCommand stWithA "gB" "mallory" true "1234" (some 2)
          (some "changed")).1 = .modified
      ∧ (handleModifyLFGCommand stWithA "gB" "mallory" true "1234" (some 2)
            (some "changed")).2.totalPlayers = 2 := by
  have h := c10_modify_cross_community stWithA "gB" "mallory" "1234" 2 "changed"
    sessionA rfl (by decide) (by decide) (by decide) (by decide)
  refine ⟨h.1, ?_⟩
  have h4 := h.2.2.2
  simpa [stWithA, sessionA] using h4

end Exolfg
